import Mathlib

/-
Verification of the smartcab Q-learning agent
(src/projects/smartcab/smartcab/agent.py, class LearningAgent).

The agent's mutable fields (learning flag, Q-table, epsilon, alpha, trial
counter, decay-function id, decay coefficient) are modelled as a record,
and each method becomes a pure function from the record (plus the random
draws and collaborator inputs the source consumes) to a result.  Python
dictionaries are modelled as association lists with first-match lookup and
in-place update, which matches dict lookup and `d[k] = v` assignment.
Float arithmetic is modelled over the rationals.  Python exceptions
(KeyError on a missing dict key, ValueError from `max` of an empty
sequence) are modelled with the `Except` monad.  The source targets
Python 2 (`raw_input` in `run`), so `/` between two ints is floor
division; this matters for decay schedule 1.
-/

set_option autoImplicit false

namespace Smartcab

/-- First-match lookup in an association list, modelling Python dict
lookup `d[k]` (dict keys are unique, so first match is the match). -/
def dictLookup {α β : Type} [DecidableEq α] (k : α) : List (α × β) → Option β
  | [] => none
  | p :: rest => if p.1 = k then some p.2 else dictLookup k rest

/-- Update-or-append in an association list, modelling Python dict
assignment `d[k] = v`: an existing key keeps its position and gets the
new value; a fresh key is appended. -/
def dictInsert {α β : Type} [DecidableEq α] (k : α) (v : β) : List (α × β) → List (α × β)
  | [] => [(k, v)]
  | p :: rest => if p.1 = k then (k, v) :: rest else p :: dictInsert k v rest

/-- The four maneuvers of the smartcab.  `none_` models the Python value
`None` (stay in place). -/
inductive Action where
  | none_
  | forward
  | left
  | right
deriving DecidableEq, Repr

/-- Modelled from the spec: the environment collaborator's action list
`env.valid_actions` (environment.py is not in the repository snapshot);
the spec fixes the four-action set as none/forward/left/right. -/
def validActions : List Action := [Action.none_, Action.forward, Action.left, Action.right]

/-- A state key, as built by `build_state`: the raw tuple
(light, waypoint, oncoming, left).  Each component is a Python value that
is either `None` or a string label, modelled as `Option String`. -/
abbrev State := Option String × Option String × Option String × Option String

/-- A row of the Q-table: the inner Python dict from action to value. -/
abbrev Row := List (Action × ℚ)

/-- The Q-table: the outer Python dict from state to row. -/
abbrev QTable := List (State × Row)

/-- Errors raised by the modelled methods: `keyError` is Python's
KeyError on a missing dict key, `valueError` is Python's ValueError from
`max` of an empty sequence. -/
inductive PyError where
  | keyError
  | valueError
  | malformedObservation
deriving DecidableEq, Repr

/-- The spec's name (`UnknownStateError`) for the error raised when a
Q-table operation is invoked with a state that was never ensured: in the
source this is the KeyError from `self.Q[state]`. -/
def UnknownStateError : PyError := PyError.keyError

/-- Modelled from the spec: the spec's §7 error taxonomy names a
`MalformedObservation` error for undefined categorical sensor values.
The source of `build_state` never raises it; the constant exists so the
behaviour of the encoding step can be compared against that taxonomy. -/
def MalformedObservation : PyError := PyError.malformedObservation

/-- The mutable fields of `LearningAgent` that the core logic reads and
writes (planner and environment handles are external collaborators). -/
structure AgentState where
  learning : Bool
  Q : QTable
  epsilon : ℚ
  alpha : ℚ
  t : ℕ
  decay_fun : ℤ
  decay : ℚ
deriving DecidableEq, Repr

/-- `LearningAgent.__init__`: the Q-table starts empty, `t` starts at 0,
and a decay-function id above 4 is normalized to 0. -/
def init (learning : Bool) (epsilon alpha : ℚ) (decay_fun : ℤ) (decay : ℚ) : AgentState :=
  { learning := learning, Q := [], epsilon := epsilon, alpha := alpha, t := 0,
    decay_fun := if decay_fun > 4 then 0 else decay_fun, decay := decay }

/-- `LearningAgent.reset`: increments the trial counter, then either
forces epsilon and alpha to 0 (testing) or recomputes epsilon by the
selected decay schedule.  Schedule 1 divides the int literal 1 by the
int `t * t`, which in Python 2 is floor division, modelled by `ℕ`
division.  Schedules 3 and 4 call `math.exp` and `math.cos`, which are
transcendental; they are passed in as the function parameters `expF` and
`cosF` (applied to the same arguments as the source).  An unrecognized
id (possible only for a negative id, after the `init` normalization)
matches no branch and leaves epsilon unchanged. -/
def reset (expF cosF : ℚ → ℚ) (testing : Bool) (a : AgentState) : AgentState :=
  let a1 : AgentState := { a with t := a.t + 1 }
  if testing then { a1 with epsilon := 0, alpha := 0 }
  else if a1.decay_fun = 0 then { a1 with epsilon := a1.epsilon - a1.decay }
  else if a1.decay_fun = 1 then { a1 with epsilon := ((1 / (a1.t * a1.t) : ℕ) : ℚ) }
  else if a1.decay_fun = 2 then { a1 with epsilon := a1.epsilon * (1 - a1.decay) ^ a1.t }
  else if a1.decay_fun = 3 then { a1 with epsilon := expF (-a1.decay * (a1.t : ℚ)) }
  else if a1.decay_fun = 4 then { a1 with epsilon := cosF (a1.decay * (a1.t : ℚ)) }
  else a1

/-- The three fields of the raw observation dict returned by
`env.sense(self)` that `build_state` reads. -/
structure Inputs where
  light : Option String
  oncoming : Option String
  left : Option String
deriving DecidableEq, Repr

/-- `LearningAgent.build_state`: packs the raw light/oncoming/left
values and the planner's waypoint into the state tuple
`(light, waypoint, oncoming, left)`.  The source performs no validation
of the raw values. -/
def build_state (inputs : Inputs) (waypoint : Option String) : State :=
  (inputs.light, waypoint, inputs.oncoming, inputs.left)

/-- The encoding step of `build_state`, lifted into the error monad the
other table operations use, so its (non-)failure behaviour can be
stated: the source body raises nothing, so the lift always returns
`ok`. -/
def build_stateE (inputs : Inputs) (waypoint : Option String) : Except PyError State :=
  Except.ok (build_state inputs waypoint)

/-- Python's `max` over a sequence: ValueError on an empty sequence,
otherwise the left fold of the binary max over the elements. -/
def pyMax : List ℚ → Except PyError ℚ
  | [] => Except.error PyError.valueError
  | x :: xs => Except.ok (xs.foldl max x)

/-- `LearningAgent.get_maxQ`: `max(self.Q[state].values())`; the row
lookup raises KeyError when the state was never created. -/
def get_maxQ (s : State) (a : AgentState) : Except PyError ℚ :=
  match dictLookup s a.Q with
  | none => Except.error PyError.keyError
  | some row => pyMax (row.map Prod.snd)

/-- The row a fresh state receives in `createQ`, in the source's literal
order: `{None: 0., 'left': 0., 'right': 0., 'forward': 0.}`. -/
def initRow : Row :=
  [(Action.none_, 0), (Action.left, 0), (Action.right, 0), (Action.forward, 0)]

/-- `LearningAgent.createQ`: when learning and the state is not yet a
key of the Q-table, insert the all-zeros row; otherwise do nothing. -/
def createQ (s : State) (a : AgentState) : AgentState :=
  if a.learning then
    if (dictLookup s a.Q).isNone then { a with Q := dictInsert s initRow a.Q }
    else a
  else a

/-- The random draws one call of `choose_action` may consume:
`randIdx` indexes `random.choice(self.valid_actions)` on the
non-learning branch, `tieIdx` indexes `random.choice(actions)` over the
tied actions, `x` is `random.uniform(0, 1)`, and `exploreIdx` indexes
the exploration override's `random.choice(self.valid_actions)`. -/
structure Draws where
  randIdx : ℕ
  tieIdx : ℕ
  x : ℚ
  exploreIdx : ℕ

/-- `random.choice(l)`: a uniform index into `l`.  The draw is modelled
by an arbitrary natural reduced mod the length; the default is never
returned for the nonempty lists the agent passes. -/
def pyChoice {α : Type} (l : List α) (i : ℕ) (dflt : α) : α :=
  match l with
  | [] => dflt
  | x :: xs => (x :: xs).get ⟨i % (x :: xs).length, Nat.mod_lt i (Nat.succ_pos xs.length)⟩

/-- The list comprehension of `choose_action`:
`[k for k, v in self.Q[state].items() if v == max_value]`. -/
def tiedActions (row : Row) (maxv : ℚ) : List Action :=
  (row.filter fun p => decide (p.2 = maxv)).map Prod.fst

/-- `LearningAgent.choose_action`: when not learning, a uniform draw
from `valid_actions`; when learning, a uniform draw from the actions
tied for the maximum Q-value, overridden by a uniform draw from
`valid_actions` exactly when the uniform value `x` is strictly below
epsilon.  The `get_maxQ` call raises KeyError for a state never
created, which propagates.  (The assignments to `self.state` and
`self.next_waypoint` touch no field the core logic reads.) -/
def choose_action (s : State) (d : Draws) (a : AgentState) : Except PyError Action :=
  if a.learning = false then
    Except.ok (pyChoice validActions d.randIdx Action.none_)
  else
    match get_maxQ s a with
    | Except.error e => Except.error e
    | Except.ok maxv =>
      match dictLookup s a.Q with
      | none => Except.error PyError.keyError
      | some row =>
        if d.x < a.epsilon then Except.ok (pyChoice validActions d.exploreIdx Action.none_)
        else Except.ok (pyChoice (tiedActions row maxv) d.tieIdx Action.none_)

/-- `LearningAgent.learn`: when learning, reads `Q[state][action]`
(KeyError when either key is missing) and stores
`(1 - alpha) * Qvalue + alpha * reward` back at the same keys; a no-op
when not learning. -/
def learn (s : State) (act : Action) (r : ℚ) (a : AgentState) : Except PyError AgentState :=
  if a.learning then
    match dictLookup s a.Q with
    | none => Except.error PyError.keyError
    | some row =>
      match dictLookup act row with
      | none => Except.error PyError.keyError
      | some q =>
        Except.ok { a with
          Q := dictInsert s (dictInsert act ((1 - a.alpha) * q + a.alpha * r) row) a.Q }
  else Except.ok a

/-- `LearningAgent.update`: one full step — build the state, ensure it
in the table, choose an action, receive the reward from the environment
(`rewardOf`, modelling `env.act`), and learn. -/
def update (inputs : Inputs) (waypoint : Option String) (d : Draws)
    (rewardOf : Action → ℚ) (a : AgentState) : Except PyError AgentState :=
  let s := build_state inputs waypoint
  let a1 := createQ s a
  match choose_action s d a1 with
  | Except.error e => Except.error e
  | Except.ok act => learn s act (rewardOf act) a1

/-- The spec's row invariant: every one of the four actions is a key of
the row. -/
def fullRow (r : Row) : Prop := ∀ act : Action, (dictLookup act r).isSome = true

/-- The spec's table invariant: every state present as a key has a row
with an entry for all four actions (no partial rows). -/
def tableInv (Q : QTable) : Prop := ∀ s r, dictLookup s Q = some r → fullRow r

/-- The key set of `Q` is contained in the key set of `Q2` (used to state
that the key set grows monotonically). -/
def keysMono (Q Q2 : QTable) : Prop :=
  ∀ s, (dictLookup s Q).isSome = true → (dictLookup s Q2).isSome = true

instance {ε α : Type} [DecidableEq ε] [DecidableEq α] : DecidableEq (Except ε α)
  | Except.ok a, Except.ok b =>
    if h : a = b then isTrue (by rw [h]) else isFalse fun hc => h (Except.ok.inj hc)
  | Except.ok _, Except.error _ => isFalse fun hc => Except.noConfusion hc
  | Except.error _, Except.ok _ => isFalse fun hc => Except.noConfusion hc
  | Except.error e, Except.error f =>
    if h : e = f then isTrue (by rw [h]) else isFalse fun hc => h (Except.error.inj hc)

/-! Concrete fixtures used by the closed witness and counterexample
theorems below. -/

/-- A state with every feature `None` (Python accepts any hashable tuple
as a dict key). -/
def s0 : State := (none, none, none, none)

/-- A second state, distinct from `s0`. -/
def s1 : State := (some "green", none, none, none)

/-- The zero function, standing in for `math.exp` / `math.cos` in runs
that never take the schedule-3 or schedule-4 branch. -/
def zf : ℚ → ℚ := fun _ => 0

/-- A freshly constructed learning agent (empty table). -/
def lA0 : AgentState := init true 1 (mkRat 1 2) 0 (mkRat 1 2)

/-- A freshly constructed non-learning agent. -/
def nlA : AgentState := init false 1 (mkRat 1 2) 0 (mkRat 1 2)

/-- A learning agent whose table holds the single ensured state `s0`. -/
def witA : AgentState := createQ s0 lA0

/-- A draw record with every index 0 and uniform value 0. -/
def d0 : Draws := { randIdx := 0, tieIdx := 0, x := 0, exploreIdx := 0 }

/-- An observation whose light field carries the undefined categorical
value "purple" (the light domain is green/red). -/
def badObs : Inputs := { light := some "purple", oncoming := none, left := none }

/-! Helper lemmas about the dict model. -/

theorem dictLookup_insert_self {α β : Type} [DecidableEq α] (k : α) (v : β)
    (l : List (α × β)) : dictLookup k (dictInsert k v l) = some v := by
  induction l with
  | nil => simp [dictLookup, dictInsert]
  | cons p rest ih =>
    by_cases h : p.1 = k
    · simp [dictLookup, dictInsert, h]
    · simp [dictLookup, dictInsert, h, ih]

theorem dictLookup_insert_ne {α β : Type} [DecidableEq α] {k k2 : α} (h : k2 ≠ k)
    (v : β) (l : List (α × β)) : dictLookup k2 (dictInsert k v l) = dictLookup k2 l := by
  have hk : k ≠ k2 := fun h2 => h h2.symm
  induction l with
  | nil => simp [dictLookup, dictInsert, hk]
  | cons p rest ih =>
    obtain ⟨pk, pv⟩ := p
    by_cases hp : pk = k
    · subst hp
      simp [dictLookup, dictInsert, hk]
    · by_cases hp2 : pk = k2
      · simp [dictLookup, dictInsert, hp, hp2, h]
      · simp [dictLookup, dictInsert, hp, hp2, ih]

theorem dictInsert_eq_self {α β : Type} [DecidableEq α] {k : α} {v : β}
    {l : List (α × β)} (h : dictLookup k l = some v) : dictInsert k v l = l := by
  induction l with
  | nil => simp [dictLookup] at h
  | cons p rest ih =>
    obtain ⟨pk, pv⟩ := p
    by_cases hp : pk = k
    · subst hp
      simp [dictLookup] at h
      simp [dictInsert, h]
    · simp only [dictLookup, if_neg hp] at h
      simp [dictInsert, hp, ih h]

theorem mem_of_dictLookup_eq_some {α β : Type} [DecidableEq α] {k : α} {v : β}
    {l : List (α × β)} (h : dictLookup k l = some v) : (k, v) ∈ l := by
  induction l with
  | nil => simp [dictLookup] at h
  | cons p rest ih =>
    obtain ⟨pk, pv⟩ := p
    by_cases hp : pk = k
    · subst hp
      simp [dictLookup] at h
      subst h
      exact List.mem_cons_self _ _
    · simp only [dictLookup, if_neg hp] at h
      exact List.mem_cons_of_mem _ (ih h)

theorem dictLookup_isSome_insert {α β : Type} [DecidableEq α] (k k2 : α) (v : β)
    (l : List (α × β)) (h : (dictLookup k2 l).isSome = true) :
    (dictLookup k2 (dictInsert k v l)).isSome = true := by
  by_cases hk : k2 = k
  · subst hk
    simp [dictLookup_insert_self]
  · rwa [dictLookup_insert_ne hk]

/-! Helper lemmas about Python's `max` over a list. -/

theorem le_foldl_max (x : ℚ) (xs : List ℚ) : x ≤ xs.foldl max x := by
  induction xs generalizing x with
  | nil => simp
  | cons y ys ih => exact le_trans (le_max_left x y) (ih (max x y))

theorem mem_le_foldl_max {y : ℚ} (x : ℚ) (xs : List ℚ) (h : y ∈ xs) :
    y ≤ xs.foldl max x := by
  induction xs generalizing x with
  | nil => simp at h
  | cons z zs ih =>
    rcases List.mem_cons.mp h with h1 | h2
    · subst h1
      exact le_trans (le_max_right x y) (le_foldl_max _ zs)
    · exact ih (max x z) h2

theorem foldl_max_mem (x : ℚ) (xs : List ℚ) : xs.foldl max x ∈ x :: xs := by
  induction xs generalizing x with
  | nil => simp
  | cons y ys ih =>
    have h := ih (max x y)
    rw [List.foldl_cons]
    rcases List.mem_cons.mp h with h1 | h2
    · rcases max_choice x y with hc | hc
      · rw [h1, hc]
        exact List.mem_cons_self _ _
      · rw [h1, hc]
        exact List.mem_cons_of_mem _ (List.mem_cons_self _ _)
    · exact List.mem_cons_of_mem _ (List.mem_cons_of_mem _ h2)

theorem pyMax_ok_mem {l : List ℚ} {m : ℚ} (h : pyMax l = Except.ok m) : m ∈ l := by
  cases l with
  | nil => simp [pyMax] at h
  | cons x xs =>
    simp only [pyMax, Except.ok.injEq] at h
    subst h
    exact foldl_max_mem x xs

theorem pyMax_ok_ge {l : List ℚ} {m : ℚ} (h : pyMax l = Except.ok m) :
    ∀ y ∈ l, y ≤ m := by
  cases l with
  | nil => simp [pyMax] at h
  | cons x xs =>
    simp only [pyMax, Except.ok.injEq] at h
    subst h
    intro y hy
    rcases List.mem_cons.mp hy with h1 | h2
    · subst h1
      exact le_foldl_max y xs
    · exact mem_le_foldl_max x xs h2

/-! Helper lemmas about `pyChoice` and `tiedActions`. -/

theorem pyChoice_mem {α : Type} {l : List α} (i : ℕ) (dflt : α) (h : l ≠ []) :
    pyChoice l i dflt ∈ l := by
  cases l with
  | nil => exact absurd rfl h
  | cons x xs =>
    simp only [pyChoice]
    exact List.get_mem _ _ _

theorem mem_tiedActions {row : Row} {maxv : ℚ} {act : Action} :
    act ∈ tiedActions row maxv ↔ (act, maxv) ∈ row := by
  constructor
  · intro h
    simp only [tiedActions, List.mem_map, List.mem_filter, decide_eq_true_eq] at h
    rcases h with ⟨p, ⟨hmem, hval⟩, hfst⟩
    have : p = (act, maxv) := by
      cases p
      cases hfst
      cases hval
      rfl
    exact this ▸ hmem
  · intro h
    simp only [tiedActions, List.mem_map, List.mem_filter, decide_eq_true_eq]
    exact ⟨(act, maxv), ⟨h, rfl⟩, rfl⟩

theorem tiedActions_ne_nil {row : Row} {maxv : ℚ}
    (h : maxv ∈ row.map Prod.snd) : tiedActions row maxv ≠ [] := by
  rcases List.mem_map.mp h with ⟨p, hmem, hval⟩
  have : p.1 ∈ tiedActions row maxv := by
    rw [mem_tiedActions]
    have : p = (p.1, maxv) := by
      cases p
      cases hval
      rfl
    exact this ▸ hmem
  exact List.ne_nil_of_mem this

/-! Helper lemmas characterising the agent operations case by case. -/

theorem get_maxQ_of_lookup {a : AgentState} {s : State} {row : Row}
    (hrow : dictLookup s a.Q = some row) :
    get_maxQ s a = pyMax (row.map Prod.snd) := by
  simp [get_maxQ, hrow]

theorem get_maxQ_of_absent {a : AgentState} {s : State}
    (h : dictLookup s a.Q = none) : get_maxQ s a = Except.error UnknownStateError := by
  simp [get_maxQ, h, UnknownStateError]

theorem choose_action_of_not_learning {a : AgentState} (hl : a.learning = false)
    (s : State) (d : Draws) :
    choose_action s d a = Except.ok (pyChoice validActions d.randIdx Action.none_) := by
  simp [choose_action, hl]

theorem choose_action_explore {a : AgentState} {s : State} {d : Draws} {row : Row} {maxv : ℚ}
    (hl : a.learning = true) (hrow : dictLookup s a.Q = some row)
    (hmax : get_maxQ s a = Except.ok maxv) (hx : d.x < a.epsilon) :
    choose_action s d a = Except.ok (pyChoice validActions d.exploreIdx Action.none_) := by
  simp [choose_action, hl, hmax, hrow, hx]

theorem choose_action_greedy {a : AgentState} {s : State} {d : Draws} {row : Row} {maxv : ℚ}
    (hl : a.learning = true) (hrow : dictLookup s a.Q = some row)
    (hmax : get_maxQ s a = Except.ok maxv) (hx : ¬ d.x < a.epsilon) :
    choose_action s d a = Except.ok (pyChoice (tiedActions row maxv) d.tieIdx Action.none_) := by
  simp [choose_action, hl, hmax, hrow, hx]

theorem choose_action_of_absent {a : AgentState} {s : State}
    (hl : a.learning = true) (h : dictLookup s a.Q = none) (d : Draws) :
    choose_action s d a = Except.error UnknownStateError := by
  simp [choose_action, hl, get_maxQ_of_absent h, UnknownStateError]

theorem learn_of_learning {a : AgentState} {s : State} {act : Action} {row : Row} {q : ℚ}
    (hl : a.learning = true) (hrow : dictLookup s a.Q = some row)
    (hq : dictLookup act row = some q) (r : ℚ) :
    learn s act r a = Except.ok { a with
      Q := dictInsert s (dictInsert act ((1 - a.alpha) * q + a.alpha * r) row) a.Q } := by
  simp [learn, hl, hrow, hq]

theorem learn_of_not_learning {a : AgentState} (hl : a.learning = false)
    (s : State) (act : Action) (r : ℚ) : learn s act r a = Except.ok a := by
  simp [learn, hl]

theorem learn_of_absent {a : AgentState} {s : State} (act : Action) (r : ℚ)
    (hl : a.learning = true) (h : dictLookup s a.Q = none) :
    learn s act r a = Except.error PyError.keyError := by
  simp [learn, hl, h]

theorem learn_of_missing_action {a : AgentState} {s : State} {act : Action} {row : Row}
    (r : ℚ) (hl : a.learning = true) (hrow : dictLookup s a.Q = some row)
    (hq : dictLookup act row = none) :
    learn s act r a = Except.error PyError.keyError := by
  simp [learn, hl, hrow, hq]

theorem learn_ok_cases {a a2 : AgentState} {s : State} {act : Action} {r : ℚ}
    (h : learn s act r a = Except.ok a2) :
    (a.learning = false ∧ a2 = a) ∨
    (a.learning = true ∧ ∃ row q, dictLookup s a.Q = some row ∧
      dictLookup act row = some q ∧
      a2 = { a with Q := dictInsert s (dictInsert act ((1 - a.alpha) * q + a.alpha * r) row) a.Q }) := by
  cases hl : a.learning with
  | false =>
    left
    rw [learn_of_not_learning hl] at h
    exact ⟨rfl, (Except.ok.inj h).symm⟩
  | true =>
    right
    refine ⟨rfl, ?_⟩
    cases hrow : dictLookup s a.Q with
    | none =>
      rw [learn_of_absent act r hl hrow] at h
      cases h
    | some row =>
      cases hq : dictLookup act row with
      | none =>
        rw [learn_of_missing_action r hl hrow hq] at h
        cases h
      | some q =>
        rw [learn_of_learning hl hrow hq] at h
        rw [hl] at h
        exact ⟨row, q, rfl, hq, (Except.ok.inj h).symm⟩

theorem learn_alpha_zero {a a2 : AgentState} {s : State} {act : Action} {r : ℚ}
    (hα : a.alpha = 0) (h : learn s act r a = Except.ok a2) : a2 = a := by
  rcases learn_ok_cases h with ⟨_, h2⟩ | ⟨_, row, q, hrow, hq, h2⟩
  · exact h2
  · have hv : (1 - a.alpha) * q + a.alpha * r = q := by
      rw [hα]
      ring
    rw [hv, dictInsert_eq_self hq, dictInsert_eq_self hrow] at h2
    exact h2

theorem createQ_of_not_learning {a : AgentState} (hl : a.learning = false)
    (s : State) : createQ s a = a := by
  simp [createQ, hl]

theorem createQ_of_present {a : AgentState} {s : State}
    (h : (dictLookup s a.Q).isSome = true) : createQ s a = a := by
  cases hl : a.learning with
  | false => exact createQ_of_not_learning hl s
  | true =>
    simp only [createQ, hl, if_true]
    rw [if_neg]
    simp [Option.isNone_iff_eq_none]
    rcases Option.isSome_iff_exists.mp h with ⟨v, hv⟩
    simp [hv]

theorem createQ_of_absent {a : AgentState} {s : State}
    (hl : a.learning = true) (h : dictLookup s a.Q = none) :
    createQ s a = { a with Q := dictInsert s initRow a.Q } := by
  simp [createQ, hl, h]

theorem reset_testing (expF cosF : ℚ → ℚ) (a : AgentState) :
    reset expF cosF true a = { a with t := a.t + 1, epsilon := 0, alpha := 0 } := by
  simp [reset]

theorem initRow_lookup (act : Action) : dictLookup act initRow = some 0 := by
  cases act <;> rfl

theorem fullRow_initRow : fullRow initRow := by
  intro act
  rw [initRow_lookup]
  rfl

theorem fullRow_insert {row : Row} (act : Action) (v : ℚ) (h : fullRow row) :
    fullRow (dictInsert act v row) := by
  intro b
  exact dictLookup_isSome_insert act b v row (h b)

theorem tableInv_insert {Q : QTable} {s : State} {row : Row}
    (hinv : tableInv Q) (hrow : fullRow row) : tableInv (dictInsert s row Q) := by
  intro s2 r2 h2
  by_cases hs : s2 = s
  · subst hs
    rw [dictLookup_insert_self] at h2
    cases h2
    exact hrow
  · rw [dictLookup_insert_ne hs] at h2
    exact hinv s2 r2 h2

/-! The claims. -/

/-- C1: for every ensured state `s` with action `act` present in its row,
when the agent is in learning mode `learn` (the spec's `update`) replaces
the stored value Q[s][act] with (1 − α)·Q[s][act] + α·r and changes no
other table entry (neither another action in the row of `s` nor the row
of another state); when the agent is not in learning mode, `learn` is a
no-op for any arguments. -/
theorem C1_update_rule (a : AgentState) (s s2 : State) (act b : Action) (r : ℚ)
    (row : Row) (q : ℚ)
    (hrow : dictLookup s a.Q = some row) (hq : dictLookup act row = some q)
    (hb : b ≠ act) (hs2 : s2 ≠ s) :
    (a.learning = true →
      learn s act r a = Except.ok { a with
        Q := dictInsert s (dictInsert act ((1 - a.alpha) * q + a.alpha * r) row) a.Q } ∧
      dictLookup s (dictInsert s (dictInsert act ((1 - a.alpha) * q + a.alpha * r) row) a.Q)
        = some (dictInsert act ((1 - a.alpha) * q + a.alpha * r) row) ∧
      dictLookup act (dictInsert act ((1 - a.alpha) * q + a.alpha * r) row)
        = some ((1 - a.alpha) * q + a.alpha * r) ∧
      dictLookup b (dictInsert act ((1 - a.alpha) * q + a.alpha * r) row)
        = dictLookup b row ∧
      dictLookup s2 (dictInsert s (dictInsert act ((1 - a.alpha) * q + a.alpha * r) row) a.Q)
        = dictLookup s2 a.Q) ∧
    (a.learning = false → learn s act r a = Except.ok a) := by
  constructor
  · intro hl
    exact ⟨learn_of_learning hl hrow hq r, dictLookup_insert_self _ _ _,
      dictLookup_insert_self _ _ _, dictLookup_insert_ne hb _ _,
      dictLookup_insert_ne hs2 _ _⟩
  · intro hl
    exact learn_of_not_learning hl s act r

/-- C1 witness: on the one-state learning agent, `learn` at state `s0`,
action forward, reward 4 stores (1 − 1/2)·0 + (1/2)·4 and leaves the
left-action entry and the row of the distinct state `s1` unchanged. -/
theorem C1_update_rule_witness :
    witA.learning = true ∧
    dictLookup s0 witA.Q = some initRow ∧
    dictLookup Action.forward initRow = some 0 ∧
    learn s0 Action.forward 4 witA = Except.ok { witA with
      Q := dictInsert s0
        (dictInsert Action.forward ((1 - witA.alpha) * 0 + witA.alpha * 4) initRow) witA.Q } ∧
    dictLookup Action.left
        (dictInsert Action.forward ((1 - witA.alpha) * 0 + witA.alpha * 4) initRow)
      = dictLookup Action.left initRow ∧
    dictLookup s1
        (dictInsert s0
          (dictInsert Action.forward ((1 - witA.alpha) * 0 + witA.alpha * 4) initRow) witA.Q)
      = dictLookup s1 witA.Q := by
  have h := (C1_update_rule witA s0 s1 Action.forward Action.left 4 initRow 0
    (by decide) (by decide) (by decide) (by decide)).1 (by decide)
  exact ⟨by decide, by decide, by decide, h.1, h.2.2.2.1, h.2.2.2.2⟩

/-- C2: in learning mode, for an ensured state, `choose_action` returns
the exploration draw from the full four-action set exactly when the
uniform value is strictly below ε, and otherwise returns the tie-breaking
draw from the actions whose Q-value equals the row maximum; the
tie-breaking draw always carries the maximum value `maxv`, every row
entry is at most `maxv`, and whenever ε ≤ 0 (the uniform value being
nonnegative) the returned action is the tie-breaking draw, hence tied for
the maximum and never a non-tied action. -/
theorem C2_select_action (a : AgentState) (s : State) (d : Draws) (row : Row)
    (maxv : ℚ) (p : Action × ℚ)
    (hl : a.learning = true) (hrow : dictLookup s a.Q = some row)
    (hmax : get_maxQ s a = Except.ok maxv) (hp : p ∈ row) (hx0 : 0 ≤ d.x) :
    (d.x < a.epsilon →
      choose_action s d a = Except.ok (pyChoice validActions d.exploreIdx Action.none_)) ∧
    (¬ d.x < a.epsilon →
      choose_action s d a = Except.ok (pyChoice (tiedActions row maxv) d.tieIdx Action.none_)) ∧
    (pyChoice (tiedActions row maxv) d.tieIdx Action.none_, maxv) ∈ row ∧
    p.2 ≤ maxv ∧
    (a.epsilon ≤ 0 →
      choose_action s d a = Except.ok (pyChoice (tiedActions row maxv) d.tieIdx Action.none_)) := by
  have hpm : pyMax (row.map Prod.snd) = Except.ok maxv :=
    (get_maxQ_of_lookup hrow).symm.trans hmax
  have hmem : maxv ∈ row.map Prod.snd := pyMax_ok_mem hpm
  refine ⟨fun hx => choose_action_explore hl hrow hmax hx,
    fun hx => choose_action_greedy hl hrow hmax hx,
    mem_tiedActions.mp (pyChoice_mem _ _ (tiedActions_ne_nil hmem)),
    pyMax_ok_ge hpm p.2 (List.mem_map_of_mem Prod.snd hp),
    fun hε => choose_action_greedy hl hrow hmax (not_lt.mpr (le_trans hε hx0))⟩

/-- C2 witness: on the one-state learning agent with ε = 1 and the
uniform draw 0, `choose_action` takes the exploration override, and the
tie-breaking draw over the all-zeros row is an action carrying the
maximum value 0. -/
theorem C2_select_action_witness :
    witA.learning = true ∧
    dictLookup s0 witA.Q = some initRow ∧
    get_maxQ s0 witA = Except.ok 0 ∧
    (Action.none_, (0 : ℚ)) ∈ initRow ∧
    (0 : ℚ) ≤ d0.x ∧
    d0.x < witA.epsilon ∧
    choose_action s0 d0 witA = Except.ok (pyChoice validActions d0.exploreIdx Action.none_) ∧
    (pyChoice (tiedActions initRow 0) d0.tieIdx Action.none_, (0 : ℚ)) ∈ initRow := by
  have h := C2_select_action witA s0 d0 initRow 0 (Action.none_, 0)
    (by decide) (by decide) (by decide) (by decide) (by decide)
  exact ⟨by decide, by decide, by decide, by decide, by decide, by decide,
    h.1 (by decide), h.2.2.1⟩

/-- C3: for every prior ε and α, `reset` with testing = true (the spec's
`begin_episode(testing=True)`) sets ε and α to exactly 0 and leaves the
table as it was; afterwards, for any nonnegative uniform draw,
`choose_action` never takes the exploration override (it returns the
greedy tie-breaking draw), and any successful `learn` call leaves the
whole agent — in particular every stored Q-value — unchanged. -/
theorem C3_testing_mode (expF cosF : ℚ → ℚ) (a a3 : AgentState) (s : State)
    (d : Draws) (row : Row) (maxv : ℚ) (act : Action) (r : ℚ) :
    (reset expF cosF true a).epsilon = 0 ∧
    (reset expF cosF true a).alpha = 0 ∧
    (reset expF cosF true a).Q = a.Q ∧
    ((reset expF cosF true a).learning = true →
      dictLookup s (reset expF cosF true a).Q = some row →
      get_maxQ s (reset expF cosF true a) = Except.ok maxv →
      0 ≤ d.x →
      choose_action s d (reset expF cosF true a) =
        Except.ok (pyChoice (tiedActions row maxv) d.tieIdx Action.none_)) ∧
    (learn s act r (reset expF cosF true a) = Except.ok a3 →
      a3 = reset expF cosF true a) := by
  rw [reset_testing]
  refine ⟨rfl, rfl, rfl, ?_, ?_⟩
  · intro hl hrow hmax hx0
    exact choose_action_greedy hl hrow hmax (not_lt.mpr hx0)
  · intro h
    exact learn_alpha_zero rfl h

/-- C3 witness: resetting the one-state learning agent in testing mode
zeroes ε and α, keeps its table, makes `choose_action` return the greedy
tie-breaking draw, and makes `learn` return the agent unchanged. -/
theorem C3_testing_mode_witness :
    (reset zf zf true witA).epsilon = 0 ∧
    (reset zf zf true witA).alpha = 0 ∧
    (reset zf zf true witA).Q = witA.Q ∧
    choose_action s0 d0 (reset zf zf true witA) =
      Except.ok (pyChoice (tiedActions initRow 0) d0.tieIdx Action.none_) ∧
    learn s0 Action.none_ 5 (reset zf zf true witA) = Except.ok (reset zf zf true witA) ∧
    (reset zf zf true witA) = reset zf zf true witA := by
  have h := C3_testing_mode zf zf witA (reset zf zf true witA) s0 d0 initRow 0
    Action.none_ 5
  refine ⟨h.1, h.2.1, h.2.2.1,
    h.2.2.2.1 (by decide) (by decide) (by decide) (by decide),
    ?_, rfl⟩
  have h1 : (reset zf zf true witA).learning = true := rfl
  have hα : (reset zf zf true witA).alpha = 0 := rfl
  have hrow : dictLookup s0 (reset zf zf true witA).Q = some initRow := by decide
  have hlearn := learn_of_learning h1 hrow (initRow_lookup Action.none_) 5
  have hv : (1 - (reset zf zf true witA).alpha) * 0 + (reset zf zf true witA).alpha * 5
      = (0 : ℚ) := by
    rw [hα]
    simp
  rw [hv, dictInsert_eq_self (initRow_lookup Action.none_), dictInsert_eq_self hrow] at hlearn
  exact hlearn

/-- C4 counterexample: for an agent constructed with learning = False and
a state absent from the table, `createQ` (the spec's `ensure_state`)
inserts nothing — the claim's unconditional "inserts a row for s" fails
on the non-learning branch of the source. -/
theorem C4_counterexample :
    dictLookup s0 nlA.Q = none ∧ createQ s0 nlA = nlA ∧
    dictLookup s0 (createQ s0 nlA).Q = none :=
  ⟨by decide, by decide, by decide⟩

/-- C4 (amended): when the agent is in learning mode, `createQ` inserts
an all-zeros four-action row for an absent state and leaves other
states' rows unchanged; for a present state it is a no-op; in
particular the row written by an intervening `learn` survives a second
`createQ` call unchanged. -/
theorem C4_ensure_state (a a2 : AgentState) (s s2 : State) (b act : Action) (r : ℚ)
    (hl : a.learning = true) :
    (dictLookup s a.Q = none →
      dictLookup s (createQ s a).Q = some initRow ∧
      dictLookup b initRow = some 0 ∧
      (s2 ≠ s → dictLookup s2 (createQ s a).Q = dictLookup s2 a.Q)) ∧
    ((dictLookup s a.Q).isSome = true → createQ s a = a) ∧
    (learn s act r a = Except.ok a2 → createQ s a2 = a2) := by
  refine ⟨?_, fun h => createQ_of_present h, ?_⟩
  · intro h
    rw [createQ_of_absent hl h]
    exact ⟨dictLookup_insert_self _ _ _, initRow_lookup b,
      fun hne => dictLookup_insert_ne hne _ _⟩
  · intro h
    rcases learn_ok_cases h with ⟨hf, _⟩ | ⟨_, row, q, hrow, hq, h2⟩
    · rw [hl] at hf
      cases hf
    · apply createQ_of_present
      rw [h2]
      show (dictLookup s
        (dictInsert s (dictInsert act ((1 - a.alpha) * q + a.alpha * r) row) a.Q)).isSome = true
      rw [dictLookup_insert_self]
      rfl

/-- C4 witness: on the fresh learning agent, `createQ` at the absent
state `s0` inserts the all-zeros row and leaves the distinct state `s1`
unmapped. -/
theorem C4_ensure_state_witness :
    lA0.learning = true ∧
    dictLookup s0 lA0.Q = none ∧
    dictLookup s0 (createQ s0 lA0).Q = some initRow ∧
    dictLookup Action.right initRow = some 0 ∧
    dictLookup s1 (createQ s0 lA0).Q = dictLookup s1 lA0.Q := by
  have h := (C4_ensure_state lA0 lA0 s0 s1 Action.right Action.none_ 0 rfl).1 (by decide)
  exact ⟨rfl, by decide, h.1, h.2.1, h.2.2 (by decide)⟩

/-- C5: assuming every present row is full, `createQ` preserves the
full-row invariant and only grows the key set, and inserts exactly the
all-zeros row for a fresh state; a successful `learn` preserves the
invariant and leaves the key set unchanged (both inclusions); `reset`
leaves the table untouched (and `choose_action` returns only an action
— in the source it performs no table write). -/
theorem C5_table_invariant (a a2 : AgentState) (s : State) (b act : Action) (r : ℚ)
    (expF cosF : ℚ → ℚ) (tst : Bool) (hinv : tableInv a.Q) :
    tableInv (createQ s a).Q ∧
    keysMono a.Q (createQ s a).Q ∧
    (a.learning = true → dictLookup s a.Q = none →
      dictLookup s (createQ s a).Q = some initRow ∧ dictLookup b initRow = some 0) ∧
    (learn s act r a = Except.ok a2 →
      tableInv a2.Q ∧ keysMono a.Q a2.Q ∧ keysMono a2.Q a.Q) ∧
    (reset expF cosF tst a).Q = a.Q := by
  have hcreate : tableInv (createQ s a).Q ∧ keysMono a.Q (createQ s a).Q := by
    cases hl : a.learning with
    | false =>
      rw [createQ_of_not_learning hl]
      exact ⟨hinv, fun s2 h2 => h2⟩
    | true =>
      cases hQ : dictLookup s a.Q with
      | none =>
        rw [createQ_of_absent hl hQ]
        constructor
        · show tableInv (dictInsert s initRow a.Q)
          exact tableInv_insert hinv fullRow_initRow
        · show keysMono a.Q (dictInsert s initRow a.Q)
          exact fun s2 h2 => dictLookup_isSome_insert s s2 initRow a.Q h2
      | some row =>
        rw [createQ_of_present (by rw [hQ]; rfl)]
        exact ⟨hinv, fun s2 h2 => h2⟩
  refine ⟨hcreate.1, hcreate.2, ?_, ?_, ?_⟩
  · intro hl hQ
    rw [createQ_of_absent hl hQ]
    exact ⟨dictLookup_insert_self _ _ _, initRow_lookup b⟩
  · intro h
    rcases learn_ok_cases h with ⟨_, h2⟩ | ⟨hl, row, q, hrow, hq, h2⟩
    · subst h2
      exact ⟨hinv, fun s2 hs => hs, fun s2 hs => hs⟩
    · have hfull : fullRow row := hinv s row hrow
      have hfull2 : fullRow (dictInsert act ((1 - a.alpha) * q + a.alpha * r) row) :=
        fullRow_insert act _ hfull
      have hQ2 : a2.Q = dictInsert s (dictInsert act ((1 - a.alpha) * q + a.alpha * r) row) a.Q := by
        rw [h2]
      refine ⟨?_, ?_, ?_⟩
      · rw [hQ2]
        exact tableInv_insert hinv hfull2
      · rw [hQ2]
        exact fun s2 hs => dictLookup_isSome_insert _ _ _ _ hs
      · rw [hQ2]
        intro s2 hs
        by_cases hss : s2 = s
        · subst hss
          rw [hrow]
          rfl
        · rwa [dictLookup_insert_ne hss] at hs
  · simp only [reset]
    repeat (first | rfl | split)

/-- C5 witness: the fresh learning agent's empty table satisfies the
invariant; ensuring `s0` preserves it, grows the key set, and writes the
all-zeros row; a non-testing reset leaves the table untouched. -/
theorem C5_table_invariant_witness :
    tableInv lA0.Q ∧
    tableInv (createQ s0 lA0).Q ∧
    keysMono lA0.Q (createQ s0 lA0).Q ∧
    (dictLookup s0 (createQ s0 lA0).Q = some initRow ∧
      dictLookup Action.left initRow = some 0) ∧
    (reset zf zf false lA0).Q = lA0.Q := by
  have hinv : tableInv lA0.Q := fun s r h => Option.noConfusion h
  have h := C5_table_invariant lA0 lA0 s0 Action.left Action.none_ 0 zf zf false hinv
  exact ⟨hinv, h.1, h.2.1, h.2.2.1 rfl (by decide), h.2.2.2.2⟩

/-- C6: for a state never ensured, `get_maxQ` (the spec's `max_value`)
fails with the unknown-state error (the KeyError of `self.Q[state]`,
the spec's `UnknownStateError`), and in learning mode `choose_action`
fails the same way; both code paths only read the table, which the
embedding reflects by returning no table at all. -/
theorem C6_unknown_state (a : AgentState) (s : State) (d : Draws)
    (h : dictLookup s a.Q = none) :
    get_maxQ s a = Except.error UnknownStateError ∧
    (a.learning = true → choose_action s d a = Except.error UnknownStateError) :=
  ⟨get_maxQ_of_absent h, fun hl => choose_action_of_absent hl h d⟩

/-- C6 witness: the fresh learning agent has no row for `s0`, and both
`get_maxQ` and `choose_action` fail with the unknown-state error. -/
theorem C6_unknown_state_witness :
    dictLookup s0 lA0.Q = none ∧ lA0.learning = true ∧
    get_maxQ s0 lA0 = Except.error UnknownStateError ∧
    choose_action s0 d0 lA0 = Except.error UnknownStateError := by
  have h := C6_unknown_state lA0 s0 d0 (by decide)
  exact ⟨by decide, rfl, h.1, h.2 rfl⟩

/-- C7: in learning mode with α ∈ (0,1), a `learn` call at (s, act) with
reward r stores (1 − α)·q + α·r, whose absolute error to r equals
(1 − α)·|q − r| — so each constant-reward update multiplies the error by
(1 − α), strictly decreasing it whenever q ≠ r, and Q[s][act]
approaches r monotonically. -/
theorem C7_error_contraction (a : AgentState) (s : State) (act : Action) (r : ℚ)
    (row : Row) (q : ℚ)
    (hl : a.learning = true) (h0 : 0 < a.alpha) (h1 : a.alpha < 1)
    (hrow : dictLookup s a.Q = some row) (hq : dictLookup act row = some q) :
    learn s act r a = Except.ok { a with
      Q := dictInsert s (dictInsert act ((1 - a.alpha) * q + a.alpha * r) row) a.Q } ∧
    dictLookup act (dictInsert act ((1 - a.alpha) * q + a.alpha * r) row)
      = some ((1 - a.alpha) * q + a.alpha * r) ∧
    |(1 - a.alpha) * q + a.alpha * r - r| = (1 - a.alpha) * |q - r| ∧
    (q ≠ r → |(1 - a.alpha) * q + a.alpha * r - r| < |q - r|) := by
  have hpos : (0 : ℚ) < 1 - a.alpha := by linarith
  have key : (1 - a.alpha) * q + a.alpha * r - r = (1 - a.alpha) * (q - r) := by ring
  have habs : |(1 - a.alpha) * q + a.alpha * r - r| = (1 - a.alpha) * |q - r| := by
    rw [key, abs_mul, abs_of_pos hpos]
  refine ⟨learn_of_learning hl hrow hq r, dictLookup_insert_self _ _ _, habs, ?_⟩
  intro hqr
  rw [habs]
  have hq0 : 0 < |q - r| := abs_pos.mpr (sub_ne_zero.mpr hqr)
  have hlt : 1 - a.alpha < 1 := by linarith
  calc (1 - a.alpha) * |q - r| < 1 * |q - r| := mul_lt_mul_of_pos_right hlt hq0
    _ = |q - r| := one_mul _

/-- C7 witness: on the one-state learning agent (α = 1/2), learning
reward 4 at the zero-valued left action halves the error: the stored
value's distance to 4 equals (1 − α)·|0 − 4| and is strictly below
|0 − 4|. -/
theorem C7_error_contraction_witness :
    witA.learning = true ∧ 0 < witA.alpha ∧ witA.alpha < 1 ∧
    dictLookup s0 witA.Q = some initRow ∧
    dictLookup Action.left initRow = some 0 ∧
    learn s0 Action.left 4 witA = Except.ok { witA with
      Q := dictInsert s0
        (dictInsert Action.left ((1 - witA.alpha) * 0 + witA.alpha * 4) initRow) witA.Q } ∧
    |(1 - witA.alpha) * 0 + witA.alpha * 4 - 4| = (1 - witA.alpha) * |(0 : ℚ) - 4| ∧
    |(1 - witA.alpha) * 0 + witA.alpha * 4 - 4| < |(0 : ℚ) - 4| := by
  have h := C7_error_contraction witA s0 Action.left 4 initRow 0
    rfl (by decide) (by decide) (by decide) (by decide)
  exact ⟨rfl, by decide, by decide, by decide, by decide, h.1, h.2.2.1, h.2.2.2 (by decide)⟩

/-- C8: evaluating the source's decay schedule 1 (trial counter
incremented to t, then ε ← 1 / (t·t) with Python 2 integer division,
the ints `1` and `self.t * self.t`): after the first non-testing reset
ε = 1 as the claim says, but after the second (t = 2) ε = 0, not the
claimed 1/t² = 1/4 — the integer division truncates to 0 for every
t ≥ 2. -/
theorem C8_schedule1_eval :
    (reset zf zf false (init true 1 (mkRat 1 2) 1 (mkRat 1 2))).t = 1 ∧
    (reset zf zf false (init true 1 (mkRat 1 2) 1 (mkRat 1 2))).epsilon = 1 ∧
    (reset zf zf false (reset zf zf false (init true 1 (mkRat 1 2) 1 (mkRat 1 2)))).t = 2 ∧
    (reset zf zf false (reset zf zf false (init true 1 (mkRat 1 2) 1 (mkRat 1 2)))).epsilon = 0 ∧
    (reset zf zf false (reset zf zf false (init true 1 (mkRat 1 2) 1 (mkRat 1 2)))).epsilon
      ≠ mkRat 1 4 :=
  ⟨rfl, by decide, rfl, by decide, by decide⟩

/-- C9 counterexample: the encoding step accepts an observation whose
light field carries the undefined categorical value "purple" and
returns the State embedding it — it does not fail with
MalformedObservation as the claim states. -/
theorem C9_counterexample :
    build_stateE badObs (some "forward") =
      Except.ok (some "purple", some "forward", none, none) ∧
    build_stateE badObs (some "forward") ≠ Except.error MalformedObservation :=
  ⟨rfl, fun h => Except.noConfusion h⟩

/-- C9 (amended): the encoding step performs no validation and never
fails: every observation — also one whose light, oncoming or left field
carries an undefined categorical value — maps without error to the
State tuple (light, waypoint, oncoming, left) carrying the raw values
through; in particular every well-formed observation maps to its
State. -/
theorem C9_encoding_total (inputs : Inputs) (waypoint : Option String) :
    build_stateE inputs waypoint =
      Except.ok (inputs.light, waypoint, inputs.oncoming, inputs.left) := rfl

/-- C10: for an agent with learning = False, no operation reads or
writes the Q-table: `createQ` inserts nothing, `choose_action` draws
from the four actions without consulting the table, `learn` writes
nothing, and a full `update` step succeeds with the agent — in
particular its (empty) table — unchanged and no unknown-state error,
even though no state was ever ensured. -/
theorem C10_non_learning_frame (a : AgentState) (inputs : Inputs)
    (waypoint : Option String) (d : Draws) (rewardOf : Action → ℚ)
    (s : State) (act : Action) (r : ℚ) (hl : a.learning = false) :
    createQ s a = a ∧
    choose_action s d a = Except.ok (pyChoice validActions d.randIdx Action.none_) ∧
    learn s act r a = Except.ok a ∧
    update inputs waypoint d rewardOf a = Except.ok a := by
  refine ⟨createQ_of_not_learning hl s, choose_action_of_not_learning hl s d,
    learn_of_not_learning hl s act r, ?_⟩
  simp only [update]
  rw [createQ_of_not_learning hl, choose_action_of_not_learning hl]
  exact learn_of_not_learning hl _ _ _

/-- C10 witness: the fresh non-learning agent's table is empty and stays
empty: `createQ`, `choose_action`, `learn` and a full `update` step all
leave the agent unchanged and report no error. -/
theorem C10_non_learning_frame_witness :
    nlA.learning = false ∧
    nlA.Q = [] ∧
    createQ s0 nlA = nlA ∧
    choose_action s0 d0 nlA = Except.ok (pyChoice validActions d0.randIdx Action.none_) ∧
    learn s0 Action.forward 3 nlA = Except.ok nlA ∧
    update { light := some "red", oncoming := none, left := none } (some "forward") d0
      (fun _ => 2) nlA = Except.ok nlA := by
  have h := C10_non_learning_frame nlA
    { light := some "red", oncoming := none, left := none }
    (some "forward") d0 (fun _ => 2) s0 Action.forward 3 rfl
  exact ⟨rfl, rfl, h.1, h.2.1, h.2.2.1, h.2.2.2⟩

end Smartcab
